import Mathlib

/-!
Shallow embedding of the luxtronik heat-pump client library (Go) for
verification of its natural-language specification.

Modelling conventions, applied uniformly:
* Go `uint32` is modelled as `Nat`; wherever Go wraps modulo 2^32 the model
  applies an explicit `% pow32`.
* Go `float32`/`float64` arithmetic is abstracted to exact rationals `ℚ`;
  every theorem below is insensitive to floating-point rounding (the claims
  it settles only exercise integer and string paths, or compare the symbolic
  formula the code applies).
* Go `error` values are modelled by the inductive `GoError`; the sentinel
  created by `errors.New` (`ErrWritingNotAllowed`) is the constructor
  `writingNotAllowed`, and each `fmt.Errorf` call site gets its own
  constructor carrying the formatted arguments, mirroring the fact that
  `errors.Is` never equates a fresh `fmt.Errorf` error with the sentinel.
* A Go method that may panic is modelled with an `Option` result, `none`
  meaning the panic (e.g. slice index out of range).
* Pointer mutation is modelled by returning the updated value.
-/

namespace Luxtronik

/-- Modulus of Go `uint32` arithmetic. -/
def pow32 : Nat := 2 ^ 32

/-- Typed values flowing through the codec: the subset of Go `any` that
`Base.FromHeatPump` produces and `Base.ToHeatPump` consumes.  `f32` carries
the rational abstraction of a Go float; `dur` carries a `time.Duration`
as a whole number of seconds. -/
inductive Val where
  | u32 (n : Nat)
  | f32 (q : ℚ)
  | str (s : String)
  | boolean (b : Bool)
  | dur (seconds : Nat)
deriving DecidableEq

/-- Error model.  `writingNotAllowed` is the `errors.New` sentinel
`ErrWritingNotAllowed`; all other constructors are the individual
`fmt.Errorf` call sites of the source, carrying their formatted arguments.
Two errors are the same Go error only if they are the same constructor
with the same arguments; in particular no `fmt.Errorf` error equals the
sentinel, exactly as `errors.Is` would report. -/
inductive GoError where
  | writingNotAllowed
  | cantWriteNonWriteable (val : Val)
  | cantFindCode (s : String)
  | lengthMismatch (dl pml : Nat)
  | invalidCommand (got want : Nat)
  | tooFewArgs
  | ioEOF
deriving DecidableEq

deriving instance DecidableEq for Except

/-- Return-shape tag, modelling the `reflect.Kind` the source stores in
`Base.returnType`.  Only the kinds actually used by the catalogue appear. -/
inductive RKind where
  | uint32
  | float32
  | int64
  | string
  | bool
deriving DecidableEq

/-- Model of `cast.ToString` (spf13/cast) restricted to `Val`.  Only the
`str` case is exercised by any theorem below; the formatting of numeric
values is an abstraction. -/
def castToString : Val → String
  | .u32 n => toString n
  | .f32 q => toString q.num ++ "/" ++ toString q.den
  | .str s => s
  | .boolean b => if b then "true" else "false"
  | .dur n => toString n

/-- Model of `cast.ToFloat32` restricted to `Val`.  String parsing is
abstracted to 0 (no theorem casts a string to a float). -/
def castToFloat32 : Val → ℚ
  | .u32 n => (n : ℚ)
  | .f32 q => q
  | .str _ => 0
  | .boolean b => if b then 1 else 0
  | .dur n => (n : ℚ)

/-- Go conversion `uint32(x)` applied to a float value: truncation toward
zero; conversion of a negative float is abstracted to 0 (the Go behaviour
is unspecified out of range, and no theorem exercises it). -/
def ratToUint32 (q : ℚ) : Nat :=
  if q < 0 then 0 else q.floor.toNat % pow32

/-- Model of `cast.ToUint32` restricted to `Val`. -/
def castToUint32 : Val → Nat
  | .u32 n => n % pow32
  | .f32 q => ratToUint32 q
  | .str _ => 0
  | .boolean b => if b then 1 else 0
  | .dur n => n % pow32

/-- Half-away-from-zero rounding to an integer, the behaviour of Go
`math.Round`, on the rational abstraction. -/
def goRound (q : ℚ) : ℤ :=
  if 0 ≤ q then (q + 1 / 2).floor else -((-q + 1 / 2).floor)

/-- Model of the source helper `roundFloat(val, precision)`:
`math.Round(val·10^p) / 10^p` on the rational abstraction. -/
def roundFloat (val : ℚ) (precision : Nat) : ℚ :=
  let scale : ℚ := 10 ^ precision
  ((goRound (val * scale) : ℚ)) / scale

/-- The register descriptor, translated field by field from the Go struct
`Base`.  The Go field `class` is renamed `class_` (Lean keyword).  `codes`
is `Option` to preserve the nil / non-nil distinction the decode and encode
branches test; custom codec functions are optional function fields.  All
field defaults are the Go zero values, so a constructor that omits a field
behaves exactly like the Go composite literal. -/
structure Base where
  customFromHP : Option (Nat → Val) := none
  customToHP : Option (Val → Except GoError Nat) := none
  codes : Option (List String) := none
  returnType : RKind := .uint32
  name : String := ""
  class_ : String := ""
  luxtronikName : String := ""
  unit : String := ""
  rawValue : Nat := 0
  prevRawValue : Nat := 0
  factor : ℚ := 0
  writeable : Bool := false

/-- Translation of `Base.SetRaw`: shift the current raw into the
previous-raw slot, then store the new raw. -/
def Base.SetRaw (b : Base) (val : Nat) : Base :=
  { b with prevRawValue := b.rawValue, rawValue := val }

/-- Translation of `Base.HasChanges`. -/
def Base.HasChanges (b : Base) : Bool :=
  b.prevRawValue != b.rawValue

/-- The final `switch b.returnType` of `Base.FromHeatPump`. -/
def Base.fromSwitch (b : Base) : Val :=
  match b.returnType with
  | .uint32 =>
      if b.factor ≠ 0 then .u32 (ratToUint32 ((b.rawValue : ℚ) * b.factor))
      else .u32 b.rawValue
  | .float32 =>
      if b.factor ≠ 0 then .f32 (roundFloat ((b.rawValue : ℚ) * b.factor) 3)
      else .f32 ((b.rawValue : ℚ))
  | _ => .u32 b.rawValue

/-- Translation of `Base.FromHeatPump` (decode).  The result is `none`
exactly when the Go method panics: in the code-table branch the bound
check is `rawValue > len(codes)`, so `rawValue == len(codes)` reaches the
slice index `codes[rawValue]`, which is out of range. -/
def Base.FromHeatPump (b : Base) : Option Val :=
  match b.codes with
  | some codes =>
      if codes.length < b.rawValue then
        some (.str ("unknown code: " ++ toString b.rawValue))
      else
        (codes.get? b.rawValue).map .str
  | none =>
    match b.customFromHP with
    | some f => some (f b.rawValue)
    | none =>
      if b.class_ == "duration" && b.name == "seconds" then
        some (.dur b.rawValue)
      else
        some b.fromSwitch

/-- The final `switch b.returnType` of `Base.ToHeatPump`.  Note that the
`uint32` shape with zero factor and the default case both return the
descriptor's current `rawValue`, not a function of the argument. -/
def Base.toSwitch (b : Base) (val : Val) : Nat :=
  match b.returnType with
  | .uint32 =>
      if b.factor ≠ 0 then ratToUint32 (castToFloat32 val / b.factor)
      else b.rawValue
  | .float32 =>
      if b.factor ≠ 0 then ratToUint32 (castToFloat32 val / b.factor)
      else castToUint32 val
  | _ => b.rawValue

/-- Translation of `Base.ToHeatPump` (encode).  Faithful details: the
non-writeable and code-not-found failures are `fmt.Errorf` errors, not the
`ErrWritingNotAllowed` sentinel; and the custom encoder, when present, is
invoked on `b.rawValue` (the current raw value), not on `val`. -/
def Base.ToHeatPump (b : Base) (val : Val) : Except GoError Nat :=
  if !b.writeable then
    .error (.cantWriteNonWriteable val)
  else
    match b.codes with
    | some codes =>
        let vals := castToString val
        match codes.findIdx? (fun code => code == vals) with
        | some idx => .ok idx
        | none => .error (.cantFindCode vals)
    | none =>
      match b.customToHP with
      | some f => f (.u32 b.rawValue)
      | none => .ok (b.toSwitch val)

/-- Translation of `NewCount`. -/
def NewCount (name : String) : Base :=
  { returnType := .uint32, name := "Count", class_ := "count",
    luxtronikName := name }

/-- Translation of `NewUnknown` (writeable is explicitly false). -/
def NewUnknown (name : String) : Base :=
  { returnType := .uint32, name := "none", class_ := "none",
    luxtronikName := name, writeable := false }

/-- Translation of `NewMinutes`. -/
def NewMinutes (name : String) (writeable : Bool) : Base :=
  { returnType := .int64, name := "minutes", class_ := "duration",
    luxtronikName := name, unit := "min", writeable := writeable }

/-- Translation of `NewHeatingMode`: code table indices 0..4. -/
def NewHeatingMode (name : String) (writeable : Bool) : Base :=
  { returnType := .string, name := "HeatingMode", luxtronikName := name,
    class_ := "selection", writeable := writeable,
    codes := some ["Automatic", "Second heatsource", "Party", "Holidays", "Off"] }

/-- Translation of `NewHotWaterMode`: the heating-mode table with the
internal tag changed. -/
def NewHotWaterMode (name : String) (writeable : Bool) : Base :=
  { NewHeatingMode name writeable with name := "HotWaterMode" }

/-- Translation of `NewPoolMode`: the heating-mode table with slot 1
blanked (`b.codes[1] = ""`) and the internal tag changed. -/
def NewPoolMode (name : String) (writeable : Bool) : Base :=
  let b := NewHeatingMode name writeable
  { b with codes := some ((b.codes.getD []).set 1 ""), name := "PoolMode" }

/-- Translation of `NewAccessLevel`. -/
def NewAccessLevel (name : String) (writeable : Bool) : Base :=
  { returnType := .string, name := "AccessLevel", luxtronikName := name,
    class_ := "selection", writeable := writeable,
    codes := some ["user", "after sales service", "manufacturer", "installer"] }

/-- Translation of `NewMixedCircuitMode`: the Go sparse literal
`{0: "Automatic", 2: "Party", 3: "Holidays", 4: "Off"}` denotes a dense
5-element slice with an empty string at index 1. -/
def NewMixedCircuitMode (name : String) (writeable : Bool) : Base :=
  { returnType := .string, name := "MixedCircuitMode", luxtronikName := name,
    class_ := "selection", writeable := writeable,
    codes := some ["Automatic", "", "Party", "Holidays", "Off"] }

/-- Translation of `NewCoolingMode`. -/
def NewCoolingMode (name : String) (writeable : Bool) : Base :=
  { returnType := .string, name := "CoolingMode", luxtronikName := name,
    class_ := "selection", writeable := writeable,
    codes := some ["Off", "Automatic"] }

/-- Translation of `NewSolarMode`: the cooling-mode table with the
internal tag changed. -/
def NewSolarMode (name : String) (writeable : Bool) : Base :=
  { NewCoolingMode name writeable with name := "SolarMode" }

/-- Translation of `NewVentilationMode`. -/
def NewVentilationMode (name : String) (writeable : Bool) : Base :=
  { returnType := .string, name := "VentilationMode", luxtronikName := name,
    class_ := "selection", writeable := writeable,
    codes := some ["Automatic", "Party", "Holidays", "Off"] }

/-- Translation of `NewSecOperationMode` (never writeable: the Go
constructor leaves `writeable` at its zero value). -/
def NewSecOperationMode (name : String) : Base :=
  { returnType := .string, name := "SecOperationMode", luxtronikName := name,
    class_ := "selection",
    codes := some ["off", "cooling", "heating", "fault", "transition",
      "defrost", "waiting", "waiting", "transition", "stop", "manual",
      "simulation start", "evu lock"] }

/-- Translation of `NewHours2`.  The custom decode is `1 + val/2` in
`uint32` arithmetic (no overflow possible for a `uint32` argument); the
custom encode is `(cast.ToUint32(val) - 1) * 2` where both the subtraction
and the doubling wrap modulo 2^32. -/
def NewHours2 (name : String) (writeable : Bool) : Base :=
  { customFromHP := some fun val => .u32 (1 + val / 2),
    customToHP := some fun val =>
      .ok (((castToUint32 val + pow32 - 1) % pow32) * 2 % pow32),
    returnType := .int64, name := "hours2", class_ := "duration",
    luxtronikName := name, unit := "h", writeable := writeable }

/-- Translation of `NewMajorMinorVersion`.  The custom encode is the only
place in the codec that returns the `ErrWritingNotAllowed` sentinel. -/
def NewMajorMinorVersion (name : String) : Base :=
  { customFromHP := some fun val =>
      if val > 0 then .str (toString (val / 100) ++ "." ++ toString (val % 100))
      else .str "0",
    customToHP := some fun _ => .error .writingNotAllowed,
    returnType := .string, name := "MajorMinorVersion", class_ := "version",
    luxtronikName := name, unit := "" }

/-- The register map.  The Go type is `map[int]*Base`; by the documented
invariant every bank is dense on the keys 0..N-1, so the model is a list
whose position is the slot index. -/
abbrev DataTypeMap := List Base

/-- Translation of `DataTypeMap.SetRawValues`.  The Go method mutates the
map in place and returns an error; the model returns the (possibly
updated) map together with the optional error.  On a length mismatch it
returns before touching any descriptor; otherwise `pm[idx].SetRaw(raw)`
runs for each index of the data vector, which for a dense map is the
positionwise `zip`. -/
def DataTypeMap.SetRawValues (pm : DataTypeMap) (data : List Nat) :
    DataTypeMap × Option GoError :=
  if data.length ≠ pm.length then
    (pm, some (.lengthMismatch data.length pm.length))
  else
    ((pm.zip data).map fun p => p.1.SetRaw p.2, none)

/-- Command word `ParametersRead`. -/
def ParametersRead : Nat := 3003

/-- Command word `CalculationsRead`. -/
def CalculationsRead : Nat := 3004

/-- Command word `VisibilitiesRead`. -/
def VisibilitiesRead : Nat := 3005

/-- One successful transport read of a whole wire unit.  The session model
treats the transport as a list of read results, one element per read the
client performs: a `u32` word for `readUint32` calls, a single byte for
`readChar` calls.  An exhausted stream yields an I/O error, as a read on a
closed connection would. -/
def readWord : List Nat → Except GoError (Nat × List Nat)
  | [] => .error .ioEOF
  | w :: ws => .ok (w, ws)

/-- The payload-entry loop of `Client.readFromHeatPump`: `length` entries,
each one read with `readChar` (for `VisibilitiesRead`) or `readUint32`
(both modelled as consuming one stream element). -/
def readEntries : Nat → List Nat → Except GoError (List Nat × List Nat)
  | 0, s => .ok ([], s)
  | n + 1, s => do
      let (v, s1) ← readWord s
      let (vs, s2) ← readEntries n s1
      .ok (v :: vs, s2)

/-- The framing part of `Client.readFromHeatPump`, producing the raw
vector: guard on the request length, command echo, the status word that is
read and discarded for `CalculationsRead` only, the echo comparison (which
the source performs after the status read), the length word, then the
entries. -/
def readFrame (data : List Nat) (stream : List Nat) :
    Except GoError (List Nat) := do
  match data with
  | [] => .error .tooFewArgs
  | [_] => .error .tooFewArgs
  | d0 :: _ => do
  let (cmd, s1) ← readWord stream
  let s2 ←
    if d0 == CalculationsRead then do
      let (_stat, t) ← readWord s1
      pure t
    else
      pure s1
  if cmd ≠ d0 then
    .error (.invalidCommand cmd d0)
  else do
  let (length, s3) ← readWord s2
  let (vals, _s4) ← readEntries length s3
  .ok vals

/-- Translation of `Client.readFromHeatPump`: parse the reply frame, then
bulk-assign the raw vector.  On any framing error the map is untouched. -/
def Client.readFromHeatPump (pm : DataTypeMap) (data : List Nat)
    (stream : List Nat) : DataTypeMap × Option GoError :=
  match readFrame data stream with
  | .error e => (pm, some e)
  | .ok raws => DataTypeMap.SetRawValues pm raws

/-- Translation of `Client.readCalculations`. -/
def Client.readCalculations (pm : DataTypeMap) (stream : List Nat) :
    DataTypeMap × Option GoError :=
  Client.readFromHeatPump pm [CalculationsRead, 0] stream

/-- Translation of `Client.readParameters`. -/
def Client.readParameters (pm : DataTypeMap) (stream : List Nat) :
    DataTypeMap × Option GoError :=
  Client.readFromHeatPump pm [ParametersRead, 0] stream

/-- Big-endian interpretation of a byte list, as `binary.BigEndian.Uint32`
computes it from exactly 4 bytes. -/
def bigEndianU32 (bs : List Nat) : Nat :=
  bs.foldl (fun acc b => acc * 256 + b % 256) 0

/-- Byte-level transport for the wire codec: each element is one result of
`conn.Read` on a 4-byte buffer, either an I/O error or the chunk of bytes
actually delivered (at most 4; `n` is the chunk length). -/
abbrev ByteStream := List (Except GoError (List Nat))

/-- Translation of `Client.readUint32`.  The source performs a single
`conn.Read` into a 4-byte buffer and then calls
`binary.BigEndian.Uint32(buf[:n])`: when the read returns an error the
error is surfaced, but when it returns fewer than 4 bytes without an error
the big-endian decode indexes past the slice end and the method panics,
modelled as `none`.  There is no retry loop here (the looping helper
`netRead` is not used by this method). -/
def Client.readUint32 (tr : ByteStream) :
    Option (Except GoError (Nat × ByteStream)) :=
  match tr with
  | [] => some (.error .ioEOF)
  | .error e :: _ => some (.error e)
  | .ok chunk :: rest =>
      let n := min chunk.length 4
      if n < 4 then none
      else some (.ok (bigEndianU32 (chunk.take 4), rest))

/-- One call of `Base.FromHeatPump` observed with its post-state: the
source method reads fields of `b` but contains no assignment to any field,
so the descriptor after the call is the descriptor before it. -/
def FromHeatPumpCall (b : Base) : Option Val × Base :=
  (b.FromHeatPump, b)

/-- The descriptor state after `n` successive decode calls. -/
def FromHeatPumpCalls (b : Base) : Nat → Base
  | 0 => b
  | n + 1 => (FromHeatPumpCall (FromHeatPumpCalls b n)).2

/-- The writeable enumerated descriptors of the catalogue: every
constructor with a code table that accepts a writeable flag, instantiated
writeable.  (All other enumerated constructors leave `writeable` at its
zero value `false`.) -/
def writeableEnumCatalogue : List Base :=
  [NewHeatingMode "heating" true,
   NewHotWaterMode "hotwater" true,
   NewPoolMode "pool" true,
   NewAccessLevel "access" true,
   NewMixedCircuitMode "mixed" true,
   NewCoolingMode "cooling" true,
   NewSolarMode "solar" true,
   NewVentilationMode "vent" true]

/-- Decidable check of code-table symmetry for one descriptor: at every
index `i` of its table holding string `s`, decoding raw `i` yields `s` and
encoding `s` yields `i`. -/
def codeTableSymmetric (b : Base) : Bool :=
  match b.codes with
  | none => true
  | some cs =>
      (List.range cs.length).all fun i =>
        match cs.get? i with
        | none => false
        | some s =>
            decide ((b.SetRaw i).FromHeatPump = some (.str s)) &&
            decide (b.ToHeatPump (.str s) = .ok i)

/-- A concrete three-slot register map used by the framing scenario. -/
def threeSlotMap : DataTypeMap :=
  [NewCount "slot0", NewCount "slot1", NewCount "slot2"]

/-- A writeable descriptor of integer return shape with zero factor and a
nonzero current raw value (no catalogue constructor produces a writeable
`uint32` descriptor, so the record is built directly; all omitted fields
are the Go zero values). -/
def uintFactor0 : Base :=
  { writeable := true, returnType := .uint32, factor := 0, rawValue := 7,
    luxtronikName := "cex" }

/-- Positionwise description of the bulk-assign loop: the updated map at
index `i` is the descriptor at `i` with the data value at `i` set. -/
theorem zip_map_setRaw_get (pm : List Base) :
    ∀ (data : List Nat) (i : Nat),
      (((pm.zip data).map fun p => p.1.SetRaw p.2).get? i) =
        (pm.get? i).bind fun b => (data.get? i).map fun v => b.SetRaw v := by
  induction pm with
  | nil =>
      intro data i
      cases data <;> cases i <;> rfl
  | cons b t ih =>
      intro data i
      cases data with
      | nil =>
          cases i with
          | zero => rfl
          | succ j =>
              cases h : (b :: t).get? (j + 1) <;>
                simp [List.zip_nil_right, h]
      | cons v tv =>
          cases i with
          | zero => rfl
          | succ j => simpa using ih tv j

/-- Claim C1: with a code table, a raw value equal to the table length
passes the bound check `rawValue > len(codes)` and reaches the slice index
`codes[rawValue]`, which is out of range (decode result `none`, the model
of the Go panic); only values strictly above the length produce the
`"unknown code: <raw>"` sentinel, and in-range values produce the slot
string.  This evaluates the code at the failing input raw = 2 on the
two-entry cooling-mode table. -/
theorem codes_decode_index_eq_length :
    ((NewCoolingMode "cooling" false).SetRaw 2).FromHeatPump = none ∧
    ((NewCoolingMode "cooling" false).SetRaw 3).FromHeatPump =
      some (.str "unknown code: 3") ∧
    ((NewCoolingMode "cooling" false).SetRaw 1).FromHeatPump =
      some (.str "Automatic") := by
  decide

/-- Claim C2: on a writeable hours2 descriptor with current raw value 10,
decode yields 1 + 10/2 = 6 as the claim states, but encode(6) does not
yield 10: the source invokes the custom encoder on `b.rawValue` instead of
the requested value, so the result is (10 - 1) * 2 = 18. -/
theorem hours2_encode_applied_to_raw :
    ((NewHours2 "h2" true).SetRaw 10).FromHeatPump = some (.u32 6) ∧
    ((NewHours2 "h2" true).SetRaw 10).ToHeatPump (.u32 6) = .ok 18 ∧
    (Except.ok 18 : Except GoError Nat) ≠ .ok 10 := by
  decide

/-- Claim C3, counterexample: encoding a non-writeable descriptor and
encoding a code string that is not in the table both fail, but with fresh
formatted errors, neither of which is the `ErrWritingNotAllowed`
sentinel. -/
theorem encode_errors_not_sentinel :
    (NewUnknown "u").ToHeatPump (.u32 1) =
      .error (.cantWriteNonWriteable (.u32 1)) ∧
    (NewHeatingMode "h" true).ToHeatPump (.str "definitely-not-a-code") =
      .error (.cantFindCode "definitely-not-a-code") ∧
    GoError.cantWriteNonWriteable (.u32 1) ≠ .writingNotAllowed ∧
    GoError.cantFindCode "definitely-not-a-code" ≠ .writingNotAllowed := by
  decide

/-- Claim C3, amended: every encode on a non-writeable descriptor fails
with the formatted cannot-write error, every code-table miss on a
writeable descriptor fails with the formatted code-not-found error, and
the `ErrWritingNotAllowed` sentinel is produced only by a custom encoder,
such as the version descriptor's (reached when such a descriptor is
marked writeable). -/
theorem toHeatPump_error_kinds (b : Base) (v : Val) :
    (b.writeable = false → b.ToHeatPump v = .error (.cantWriteNonWriteable v)) ∧
    (∀ cs, b.writeable = true → b.codes = some cs →
      (∀ c ∈ cs, c ≠ castToString v) →
      b.ToHeatPump v = .error (.cantFindCode (castToString v))) ∧
    ({ NewMajorMinorVersion "fw" with writeable := true }.ToHeatPump v =
      .error .writingNotAllowed) := by
  refine ⟨?_, ?_, rfl⟩
  · intro hw
    simp [Base.ToHeatPump, hw]
  · intro cs hw hc hall
    have hnone : cs.findIdx? (fun code => code == castToString v) = none := by
      rw [List.findIdx?_eq_none_iff]
      intro x hx
      simpa using hall x hx
    simp [Base.ToHeatPump, hw, hc, hnone]

/-- Witness for the amended C3 theorem at concrete inputs. -/
theorem toHeatPump_error_kinds_witness :
    (NewUnknown "u").ToHeatPump (.u32 2) =
      .error (.cantWriteNonWriteable (.u32 2)) ∧
    (NewCoolingMode "c" true).ToHeatPump (.str "nope") =
      .error (.cantFindCode "nope") := by
  constructor
  · exact (toHeatPump_error_kinds (NewUnknown "u") (.u32 2)).1 rfl
  · exact (toHeatPump_error_kinds (NewCoolingMode "c" true) (.str "nope")).2.1
      ["Off", "Automatic"] rfl rfl (by decide)

/-- Claim C4, counterexample: a single set-raw of 5 on a fresh descriptor
makes has-changes report true (the initial raw 0 is shifted into the
previous-raw slot), contradicting the claim that one set-raw reports no
change. -/
theorem first_setRaw_reports_change :
    ((NewCount "n").SetRaw 5).HasChanges = true := by
  decide

/-- Claim C4, amended: a fresh descriptor reports no change; after one
set-raw it reports a change exactly when the value differs from the
initial raw 0; after a second set-raw it reports a change exactly when the
second value differs from the first; after a third set-raw repeating the
second value it reports no change. -/
theorem change_detection_amended (b : Base) (v1 v2 : Nat)
    (h0 : b.rawValue = 0 ∧ b.prevRawValue = 0) :
    b.HasChanges = false ∧
    ((b.SetRaw v1).HasChanges = true ↔ v1 ≠ 0) ∧
    (((b.SetRaw v1).SetRaw v2).HasChanges = true ↔ v2 ≠ v1) ∧
    (((b.SetRaw v1).SetRaw v2).SetRaw v2).HasChanges = false := by
  obtain ⟨h1, h2⟩ := h0
  refine ⟨?_, ?_, ?_, ?_⟩ <;>
    simp [Base.HasChanges, Base.SetRaw, h1, h2, bne_iff_ne, ne_comm]

/-- Witness for the amended C4 theorem at a fresh catalogue descriptor. -/
theorem change_detection_amended_witness :
    (NewCount "w").HasChanges = false ∧
    (((NewCount "w").SetRaw 5).HasChanges = true ↔ (5 : Nat) ≠ 0) ∧
    ((((NewCount "w").SetRaw 5).SetRaw 7).HasChanges = true ↔ (7 : Nat) ≠ 5) ∧
    ((((NewCount "w").SetRaw 5).SetRaw 7).SetRaw 7).HasChanges = false :=
  change_detection_amended (NewCount "w") 5 7 ⟨rfl, rfl⟩

/-- Claim C5, counterexample: a writeable descriptor of integer return
shape with factor 0 and current raw 7 encodes the requested value 3 to 7,
its current raw value, not to u32(3). -/
theorem encode_uint32_factor0_ignores_value :
    uintFactor0.ToHeatPump (.u32 3) = .ok 7 ∧
    uintFactor0.ToHeatPump (.u32 3) ≠ .ok (castToUint32 (.u32 3)) := by
  decide

/-- Claim C5, amended: for a writeable descriptor with no code table and
no custom encode, when the factor is nonzero (integer or real shape) the
encode result is u32(real(v) / factor), a function of the requested value;
with factor zero the real shape yields u32(v), but the integer shape
yields the descriptor's current raw value, ignoring the requested
value. -/
theorem toHeatPump_numeric_amended (b : Base) (v : Val)
    (hw : b.writeable = true) (hc : b.codes = none)
    (hcu : b.customToHP = none) :
    (b.factor ≠ 0 → (b.returnType = .uint32 ∨ b.returnType = .float32) →
      b.ToHeatPump v = .ok (ratToUint32 (castToFloat32 v / b.factor))) ∧
    (b.factor = 0 → b.returnType = .float32 →
      b.ToHeatPump v = .ok (castToUint32 v)) ∧
    (b.factor = 0 → b.returnType = .uint32 →
      b.ToHeatPump v = .ok b.rawValue) := by
  refine ⟨?_, ?_, ?_⟩
  · rintro hf (ht | ht) <;>
      simp [Base.ToHeatPump, Base.toSwitch, hw, hc, hcu, hf, ht]
  · intro hf ht
    simp [Base.ToHeatPump, Base.toSwitch, hw, hc, hcu, hf, ht]
  · intro hf ht
    simp [Base.ToHeatPump, Base.toSwitch, hw, hc, hcu, hf, ht]

/-- Witness for the amended C5 theorem: the integer-shape factor-zero
branch evaluated at the concrete descriptor. -/
theorem toHeatPump_numeric_amended_witness :
    uintFactor0.ToHeatPump (.u32 3) = .ok uintFactor0.rawValue :=
  (toHeatPump_numeric_amended uintFactor0 (.u32 3) rfl rfl rfl).2.2 rfl rfl

/-- Claim C6: against a transport yielding echo 3004, a status word,
length 3 and entries 10/20/30, a read-calculations call into a three-slot
map succeeds leaving raw values [10, 20, 30]; a parameters read consumes
no status word; an echo differing from the sent command fails with the
invalid-command error; and a length word of 4 whose four entries reach the
three-slot map fails with the length mismatch, leaving the map
untouched. -/
theorem readCalculations_framing :
    ((Client.readCalculations threeSlotMap [3004, 0, 3, 10, 20, 30]).2 = none ∧
      (Client.readCalculations threeSlotMap [3004, 0, 3, 10, 20, 30]).1.map
        Base.rawValue = [10, 20, 30]) ∧
    ((Client.readParameters threeSlotMap [3003, 3, 10, 20, 30]).2 = none ∧
      (Client.readParameters threeSlotMap [3003, 3, 10, 20, 30]).1.map
        Base.rawValue = [10, 20, 30]) ∧
    (Client.readCalculations threeSlotMap [3005, 0, 3, 10, 20, 30]).2 =
      some (.invalidCommand 3005 3004) ∧
    Client.readCalculations threeSlotMap [3004, 0, 4, 10, 20, 30, 40] =
      (threeSlotMap, some (.lengthMismatch 4 3)) := by
  refine ⟨⟨?_, ?_⟩, ⟨?_, ?_⟩, ?_, ?_⟩ <;> rfl

/-- Claim C7: for every writeable enumerated descriptor of the catalogue
and every index of its code table holding string s, decode of that index
yields s and encode of s yields that index back. -/
theorem writeable_code_tables_symmetric :
    writeableEnumCatalogue.all codeTableSymmetric = true := by
  decide

/-- Claim C8: the u32 reader performs a single transport read with no
retry loop; a read delivering only 2 of the 4 bytes without an error makes
the big-endian decode index past the slice end (result `none`, the model
of the Go panic), while a full 4-byte read yields the big-endian value and
an erroring read surfaces the error.  This evaluates the code at the
failing input of a short read. -/
theorem readUint32_short_read :
    Client.readUint32 [.ok [1, 2]] = none ∧
    Client.readUint32 [.ok [0, 0, 1, 2]] = some (.ok (258, [])) ∧
    Client.readUint32 [.error .ioEOF] = some (.error .ioEOF) := by
  refine ⟨?_, ?_, ?_⟩ <;> decide

/-- Claim C9: bulk-set with a vector whose length differs from the map
size returns the length-mismatch error with every descriptor untouched;
with the exact length it succeeds and the descriptor at each index
receives the vector value at that index through the raw-value setter. -/
theorem SetRawValues_spec (pm : DataTypeMap) (data : List Nat) :
    (data.length ≠ pm.length →
      DataTypeMap.SetRawValues pm data =
        (pm, some (.lengthMismatch data.length pm.length))) ∧
    (data.length = pm.length →
      (DataTypeMap.SetRawValues pm data).2 = none ∧
      ∀ i, ((DataTypeMap.SetRawValues pm data).1.get? i) =
        (pm.get? i).bind fun b => (data.get? i).map fun v => b.SetRaw v) := by
  constructor
  · intro h
    simp [DataTypeMap.SetRawValues, h]
  · intro h
    refine ⟨by simp [DataTypeMap.SetRawValues, h], fun i => ?_⟩
    have hif : ¬ data.length ≠ pm.length := by simp [h]
    simp only [DataTypeMap.SetRawValues, if_neg hif]
    exact zip_map_setRaw_get pm data i

/-- Witness for the C9 theorem: both branches at concrete inputs. -/
theorem SetRawValues_spec_witness :
    DataTypeMap.SetRawValues [NewCount "a"] [3, 4] =
      ([NewCount "a"], some (.lengthMismatch 2 1)) ∧
    ((DataTypeMap.SetRawValues [NewCount "a"] [3]).1.get? 0) =
      some ((NewCount "a").SetRaw 3) := by
  constructor
  · exact (SetRawValues_spec [NewCount "a"] [3, 4]).1 (by decide)
  · simpa using ((SetRawValues_spec [NewCount "a"] [3]).2 rfl).2 0

/-- Claim C10: decode never mutates the descriptor: after any number of
decode calls the raw value, the previous raw value and the has-changes
verdict are those of the original descriptor. -/
theorem fromHeatPump_no_mutation (b : Base) (n : Nat) :
    (FromHeatPumpCalls b n).rawValue = b.rawValue ∧
    (FromHeatPumpCalls b n).prevRawValue = b.prevRawValue ∧
    (FromHeatPumpCalls b n).HasChanges = b.HasChanges := by
  induction n with
  | zero => exact ⟨rfl, rfl, rfl⟩
  | succ k ih => simpa [FromHeatPumpCalls, FromHeatPumpCall] using ih

end Luxtronik
